import Mathlib

/-!
Verification of the x25519-key-agreement-key-2019 key-pair implementation
(`lib/crypto.js`, class `X25519KeyAgreementKey2019`).

The development embeds the operations of the class as executable Lean
functions over byte lists (`List Nat`, each entry `< 256`) and JavaScript
strings (`String`), and proves the specified properties about them.

The base58-btc codec used by the library (`base58-universal`, the base-x
algorithm) is an external dependency; it is modelled here by its algorithm:
a byte list is split into its leading zero bytes (each becoming the
character '1') and the remaining big-endian number, which is rewritten in
base 58 using the base58-btc alphabet.  Decoding reverses this and fails on
any character outside the alphabet.
-/

set_option maxRecDepth 100000

namespace X25519

/-- Big-endian digits of `n` in base `b`, computed with explicit fuel so the
definition is structural (kernel-reducible on concrete inputs). -/
def beDigitsAux (b : Nat) : Nat → Nat → List Nat
  | 0, _ => []
  | fuel+1, n => if n = 0 then [] else beDigitsAux b fuel (n / b) ++ [n % b]

/-- Big-endian base-`b` digits of `n` (empty list for `n = 0`). -/
def beDigits (b n : Nat) : List Nat := beDigitsAux b n n

/-- Value of a big-endian digit list in base `b`. -/
def beVal (b : Nat) (l : List Nat) : Nat := l.foldl (fun acc d => acc * b + d) 0

/-- The base58-btc alphabet. -/
def B58_CHARS : List Char :=
  ['1','2','3','4','5','6','7','8','9','A','B','C','D','E','F','G','H','J',
   'K','L','M','N','P','Q','R','S','T','U','V','W','X','Y','Z','a','b','c',
   'd','e','f','g','h','i','j','k','m','n','o','p','q','r','s','t','u','v',
   'w','x','y','z']

/-- Character for digit `d` in base58-btc. -/
def b58Char (d : Nat) : Char := B58_CHARS.getD d '?'

/-- Index search in the alphabet. -/
def b58ValAux : List Char → Nat → Char → Option Nat
  | [], _, _ => none
  | a :: t, i, c => if c = a then some i else b58ValAux t (i+1) c

/-- Digit value of a character, `none` when the character is not in the
base58-btc alphabet. -/
def b58Val (c : Char) : Option Nat := b58ValAux B58_CHARS 0 c

/-- Base58-btc encoding of a byte list (the base-x algorithm of the external
`base58-universal` codec): one '1' per leading zero byte, then the base-58
digits of the remaining big-endian value. -/
def encodeB58L (bs : List Nat) : List Char :=
  List.replicate (bs.takeWhile (· == 0)).length '1' ++
    (beDigits 58 (beVal 256 (bs.dropWhile (· == 0)))).map b58Char

/-- Base58-btc decoding of a character list; fails iff some character is
outside the alphabet.  Leading '1' characters become leading zero bytes, the
rest is the big-endian base-256 form of the base-58 value (leading '1'
characters are zero digits, so dropping them does not change the value). -/
def decodeB58L (cs : List Char) : Option (List Nat) :=
  if cs.all (fun c => (b58Val c).isSome) then
    some (List.replicate (cs.takeWhile (· == '1')).length 0 ++
      beDigits 256 (beVal 58 ((cs.dropWhile (· == '1')).map (fun c => (b58Val c).getD 0))))
  else none

/-- `encode` of `base58-universal` as a `String`. -/
def encodeB58 (bs : List Nat) : String := String.mk (encodeB58L bs)

/-- `decode` of `base58-universal` on a `String`; `none` models the thrown
decode exception. -/
def decodeB58 (s : String) : Option (List Nat) := decodeB58L s.data

/-! Data model of the `X25519KeyAgreementKey2019` class. -/

/-- The suite id constant `SUITE_ID`. -/
def SUITE_ID : String := "X25519KeyAgreementKey2019"

/-- The JSON-LD context constant `SUITE_CONTEXT`. -/
def SUITE_CONTEXT : String := "https://w3id.org/security/suites/x25519-2019/v1"

/-- The distinct exceptions thrown by the class (identified by message). -/
inductive KeyError
  /-- TypeError: The "publicKeyBase58" property is required. -/
  | missingPublicKey
  /-- Exception thrown by the external base58 decoder on malformed input. -/
  | base58DecodeFailed
  /-- Error: fingerprint must be a multibase encoded string. -/
  | notMultibase
  /-- Error: Unsupported Fingerprint Type. -/
  | unsupportedFingerprintType
  /-- TypeError: Export requires specifying either publicKey or privateKey. -/
  | exportRequiresSelection
  deriving DecidableEq, Repr

/-- JavaScript truthiness of an optional string: `undefined` and the empty
string are falsy, every other string is truthy. -/
def truthy : Option String → Bool
  | none => false
  | some s => !(s == "")

/-- The options record accepted by the constructor (`undefined` fields are
`none`). -/
structure KeyOptions where
  id : Option String := none
  controller : Option String := none
  revoked : Option String := none
  publicKeyBase58 : Option String := none
  privateKeyBase58 : Option String := none
  deriving DecidableEq, Repr

/-- A constructed `X25519KeyAgreementKey2019` instance.  The `type` field is
always the constant `SUITE_ID` and is therefore not stored. -/
structure KeyPair where
  id : Option String
  controller : Option String
  revoked : Option String
  publicKeyBase58 : String
  privateKeyBase58 : Option String
  deriving DecidableEq, Repr

/-- Static `fingerprintFromPublicKey`: base58-decode the public key, put the
multicodec x25519-pub header `[0xec, 0x01]` in front of the key bytes,
base58-encode and add the multibase marker 'z'. -/
def fingerprintFromPublicKey (publicKeyBase58 : String) : Except KeyError String :=
  match decodeB58 publicKeyBase58 with
  | none => .error .base58DecodeFailed
  | some pubkeyBytes => .ok ("z" ++ encodeB58 (0xec :: 0x01 :: pubkeyBytes))

/-- The constructor: `super(options)` copies `id`, `controller` and
`revoked`; a falsy `publicKeyBase58` raises the missing-key TypeError; when
`controller` is truthy and `id` falsy, `id` is derived as
`controller#fingerprint()` (which base58-decodes the public key and can
therefore raise a decode error). -/
def construct (o : KeyOptions) : Except KeyError KeyPair :=
  if truthy o.publicKeyBase58 = false then .error .missingPublicKey
  else
    let pub := o.publicKeyBase58.getD ""
    if truthy o.controller && !(truthy o.id) then
      match fingerprintFromPublicKey pub with
      | .error e => .error e
      | .ok fp =>
        .ok { id := some (o.controller.getD "" ++ "#" ++ fp),
              controller := o.controller, revoked := o.revoked,
              publicKeyBase58 := pub, privateKeyBase58 := o.privateKeyBase58 }
    else
      .ok { id := o.id, controller := o.controller, revoked := o.revoked,
            publicKeyBase58 := pub, privateKeyBase58 := o.privateKeyBase58 }

/-- Character-list core of `fromFingerprint`. -/
def fromFingerprintL (cs : List Char) : Except KeyError KeyPair :=
  match cs with
  | c :: rest =>
    if c = 'z' then
      match decodeB58L rest with
      | none => .error .base58DecodeFailed
      | some buffer =>
        if buffer[0]? = some 0xec ∧ buffer[1]? = some 0x01 then
          construct { publicKeyBase58 := some (encodeB58 (buffer.drop 2)) }
        else .error .unsupportedFingerprintType
    else .error .notMultibase
  | [] => .error .notMultibase

/-- Static `fromFingerprint`: requires a truthy string starting with 'z',
base58-decodes the remainder, requires the multicodec header `[0xec, 0x01]`,
and constructs a public-only key pair from the remaining bytes. -/
def fromFingerprint (fingerprint : Option String) : Except KeyError KeyPair :=
  match fingerprint with
  | none => .error .notMultibase
  | some fp => fromFingerprintL fp.data

/-- A property of a plain JavaScript object: missing, present with value
`undefined`, or present with a string value. -/
inductive PropVal
  | absent
  | undef
  | str (s : String)
  deriving DecidableEq, Repr

/-- Conversion of a possibly-undefined value assigned to a property. -/
def optToProp : Option String → PropVal
  | none => PropVal.undef
  | some s => PropVal.str s

/-- The record produced by `export()`. -/
structure ExportedKey where
  id : PropVal
  type : String
  context : PropVal
  controller : PropVal
  publicKeyBase58 : PropVal
  privateKeyBase58 : PropVal
  revoked : PropVal
  deriving DecidableEq, Repr

/-- The `export()` method: requires at least one of the two key flags, then
emits `id` and `type` unconditionally, `@context` when requested,
`controller`/`revoked` when truthy on the instance, and the key fields
according to the flags (assigning an absent private key stores the property
with value `undefined`). -/
def exportKey (kp : KeyPair) (publicKey privateKey includeContext : Bool) :
    Except KeyError ExportedKey :=
  if !(publicKey || privateKey) then .error .exportRequiresSelection
  else .ok {
    id := optToProp kp.id
    type := SUITE_ID
    context := if includeContext then PropVal.str SUITE_CONTEXT else PropVal.absent
    controller := if truthy kp.controller then optToProp kp.controller else PropVal.absent
    publicKeyBase58 := if publicKey then PropVal.str kp.publicKeyBase58 else PropVal.absent
    privateKeyBase58 := if privateKey then optToProp kp.privateKeyBase58 else PropVal.absent
    revoked := if truthy kp.revoked then optToProp kp.revoked else PropVal.absent }

/-- Reading a property of an exported record as a constructor option:
missing properties and `undefined` values both read back as `undefined`. -/
def propToOption : PropVal → Option String
  | PropVal.str s => some s
  | _ => none

/-- Passing an exported record back to the constructor (`from()` simply
invokes the constructor on the record). -/
def optionsOfExported (r : ExportedKey) : KeyOptions :=
  { id := propToOption r.id, controller := propToOption r.controller,
    revoked := propToOption r.revoked,
    publicKeyBase58 := propToOption r.publicKeyBase58,
    privateKeyBase58 := propToOption r.privateKeyBase58 }

/-- An arbitrary JavaScript value passed as the `fingerprint` argument. -/
inductive JSVal
  | undef
  | str (s : String)
  /-- Any value that is neither a string nor `undefined`. -/
  | other
  deriving DecidableEq, Repr

/-- The error values carried in a `{valid: false, error}` result. -/
inductive VerifyError
  /-- Error: fingerprint must be a multibase encoded string. -/
  | notMultibase
  /-- A caught base58 decode exception. -/
  | decodeFailed
  /-- Error: The fingerprint does not match the public key. -/
  | mismatch
  deriving DecidableEq, Repr

/-- The result object of `verifyFingerprint`. -/
inductive VerifyResult
  /-- The record `{valid: true}`. -/
  | valid
  /-- The record `{valid: false, error: e}`. -/
  | invalid (e : VerifyError)
  deriving DecidableEq, Repr

/-- JavaScript `Uint8Array.prototype.toString`: comma-joined decimals. -/
def toStringJS (bs : List Nat) : String :=
  String.intercalate "," (bs.map toString)

/-- The `verifyFingerprint` method: a non-string or non-'z' input is
reported as not multibase; decode failures of the fingerprint remainder or
of the instance public key are caught and returned; otherwise the header
bytes and the byte-for-byte comparison are checked together, any failure
producing the mismatch error. -/
def verifyFingerprintL (kp : KeyPair) (cs : List Char) : VerifyResult :=
  match cs with
  | c :: rest =>
    if c = 'z' then
      match decodeB58L rest with
      | none => VerifyResult.invalid VerifyError.decodeFailed
      | some fingerprintBuffer =>
        match decodeB58 kp.publicKeyBase58 with
        | none => VerifyResult.invalid VerifyError.decodeFailed
        | some publicKeyBuffer =>
          if fingerprintBuffer[0]? = some 0xec ∧ fingerprintBuffer[1]? = some 0x01 ∧
              toStringJS publicKeyBuffer = toStringJS (fingerprintBuffer.drop 2) then
            VerifyResult.valid
          else VerifyResult.invalid VerifyError.mismatch
    else VerifyResult.invalid VerifyError.notMultibase
  | [] => VerifyResult.invalid VerifyError.notMultibase

/-- The `verifyFingerprint` method on an arbitrary JavaScript value. -/
def verifyFingerprint (kp : KeyPair) (fingerprint : JSVal) : VerifyResult :=
  match fingerprint with
  | JSVal.str fp => verifyFingerprintL kp fp.data
  | _ => VerifyResult.invalid VerifyError.notMultibase

/-- The `deriveSecret` method, parametric in the external scalar
multiplication primitive: decode the remote public key, then the local
private key, then return `scalarMult(privateKey, remotePublicKey)`.
Reading `decode(undefined)` when the instance has no private key also
throws inside the decoder. -/
def deriveSecret (scalarMult : List Nat → List Nat → List Nat)
    (localKey remoteKey : KeyPair) : Except KeyError (List Nat) :=
  match decodeB58 remoteKey.publicKeyBase58 with
  | none => .error .base58DecodeFailed
  | some remotePublicKey =>
    match localKey.privateKeyBase58 with
    | none => .error .base58DecodeFailed
    | some sk =>
      match decodeB58 sk with
      | none => .error .base58DecodeFailed
      | some privateKey => .ok (scalarMult privateKey remotePublicKey)

/-- Modelled from the spec: the external `ed2curve.convertSecretKey`
primitive (the Ed25519-to-Curve25519 secret-key conversion, which is a
dependency, not part of this repository).  Per the spec it hashes the
32-byte seed (the first 32 bytes of the input; the trailing
32 bytes of a 64-byte input are ignored) and applies the standard clamping — low 3 bits of
byte 0 cleared, top bit of byte 31 cleared, bit 6 of byte 31 set — keeping
the first 32 bytes of the hash.  The hash itself (SHA-512) is kept
parametric. -/
def convertSecretKey (hash : List Nat → List Nat) (sk : List Nat) : List Nat :=
  let d := hash (sk.take 32)
  let o := d.take 32
  (o.set 0 (Nat.land (o.getD 0 0) 248)).set 31 (Nat.lor (Nat.land (o.getD 31 0) 127) 64)

/-- Static `convertFromEdPrivateKey`: base58-decode the Ed25519 private
key, convert it with the external primitive, base58-encode the result.
(The primitive returns null only for a missing input, which cannot happen
for a successfully decoded byte array, so the null branch is dead.) -/
def convertFromEdPrivateKey (hash : List Nat → List Nat)
    (privateKeyBase58 : String) : Except KeyError String :=
  match decodeB58 privateKeyBase58 with
  | none => .error .base58DecodeFailed
  | some edPrivkeyBytes => .ok (encodeB58 (convertSecretKey hash edPrivkeyBytes))

deriving instance DecidableEq for Except

/- Arithmetic facts relating the fueled big-endian digits to the Mathlib
little-endian `Nat.digits` / `Nat.ofDigits`. -/

theorem beVal_aux (b : Nat) (l : List Nat) : ∀ acc : Nat,
    l.foldl (fun acc d => acc * b + d) acc =
      Nat.ofDigits b l.reverse + acc * b ^ l.length := by
  induction l with
  | nil => intro acc; simp [Nat.ofDigits]
  | cons d t ih =>
    intro acc
    simp only [List.foldl_cons, List.reverse_cons, List.length_cons]
    rw [ih (acc * b + d), Nat.ofDigits_append]
    simp [Nat.ofDigits, pow_succ]
    ring

theorem beVal_eq (b : Nat) (l : List Nat) : beVal b l = Nat.ofDigits b l.reverse := by
  have := beVal_aux b l 0
  simpa [beVal] using this

theorem beDigitsAux_eq (b : Nat) (hb : 2 ≤ b) :
    ∀ fuel n, n ≤ fuel → beDigitsAux b fuel n = (Nat.digits b n).reverse := by
  intro fuel
  induction fuel with
  | zero =>
    intro n hn
    have : n = 0 := Nat.le_zero.mp hn
    subst this
    simp [beDigitsAux]
  | succ fuel ih =>
    intro n hn
    by_cases h0 : n = 0
    · subst h0; simp [beDigitsAux]
    · have hpos : 0 < n := Nat.pos_of_ne_zero h0
      have hdiv : n / b < n := Nat.div_lt_self hpos (by omega)
      have hle : n / b ≤ fuel := by omega
      rw [beDigitsAux, if_neg h0, ih _ hle,
        Nat.digits_def' (by omega : 1 < b) hpos]
      simp

theorem beDigits_eq (b : Nat) (hb : 2 ≤ b) (n : Nat) :
    beDigits b n = (Nat.digits b n).reverse :=
  beDigitsAux_eq b hb n n (Nat.le_refl n)

theorem beVal_beDigits (b : Nat) (hb : 2 ≤ b) (n : Nat) :
    beVal b (beDigits b n) = n := by
  rw [beVal_eq, beDigits_eq b hb, List.reverse_reverse, Nat.ofDigits_digits]

theorem beDigits_lt (b : Nat) (hb : 2 ≤ b) (n : Nat) :
    ∀ d ∈ beDigits b n, d < b := by
  intro d hd
  rw [beDigits_eq b hb, List.mem_reverse] at hd
  exact Nat.digits_lt_base (by omega) hd

theorem beDigits_head_ne_zero (b : Nat) (hb : 2 ≤ b) (n : Nat) :
    ∀ d ∈ (beDigits b n).head?, d ≠ 0 := by
  intro d hd
  rw [beDigits_eq b hb, List.head?_reverse] at hd
  by_cases h0 : n = 0
  · subst h0; simp at hd
  · have hne : Nat.digits b n ≠ [] := Nat.digits_ne_nil_iff_ne_zero.mpr h0
    rw [List.getLast?_eq_getLast _ hne] at hd
    simp only [Option.mem_def, Option.some.injEq] at hd
    subst hd
    exact Nat.getLast_digit_ne_zero b h0

theorem beDigits_beVal (b : Nat) (hb : 2 ≤ b) (l : List Nat)
    (hlt : ∀ x ∈ l, x < b) (hhead : ∀ h ∈ l.head?, h ≠ 0) :
    beDigits b (beVal b l) = l := by
  rw [beVal_eq, beDigits_eq b hb]
  have hrev : Nat.digits b (Nat.ofDigits b l.reverse) = l.reverse := by
    apply Nat.digits_ofDigits b (by omega : 1 < b)
    · intro x hx
      exact hlt x (List.mem_reverse.mp hx)
    · intro hne
      have h1 : l.reverse.getLast? = some (l.reverse.getLast hne) :=
        List.getLast?_eq_getLast _ hne
      rw [List.getLast?_reverse] at h1
      exact hhead _ h1
  rw [hrev, List.reverse_reverse]

/- Alphabet facts (finite checks). -/

theorem b58Val_b58Char : ∀ d, d < 58 → b58Val (b58Char d) = some d := by decide

theorem b58Char_ne_one : ∀ d, d < 58 → d ≠ 0 → b58Char d ≠ '1' := by decide

/- takeWhile / dropWhile bookkeeping. -/

theorem head_dropWhile {α : Type} (p : α → Bool) (l : List α) :
    ∀ h ∈ (l.dropWhile p).head?, p h = false := by
  induction l with
  | nil => intro h hh; simp [List.dropWhile] at hh
  | cons a t ih =>
    intro h hh
    by_cases hpa : p a = true
    · rw [List.dropWhile_cons_of_pos hpa] at hh
      exact ih h hh
    · rw [List.dropWhile_cons_of_neg hpa] at hh
      simp only [List.head?_cons, Option.mem_def, Option.some.injEq] at hh
      subst hh
      exact Bool.not_eq_true _ ▸ hpa

theorem takeWhile_zeros_eq_replicate (l : List Nat) :
    l.takeWhile (· == 0) = List.replicate (l.takeWhile (· == 0)).length 0 := by
  induction l with
  | nil => simp
  | cons a t ih =>
    by_cases ha : (a == 0) = true
    · have ha0 : a = 0 := by simpa using ha
      subst ha0
      rw [List.takeWhile_cons_of_pos (by simp)]
      simp only [List.length_cons, List.replicate_succ]
      rw [← ih]
    · rw [List.takeWhile_cons_of_neg (by simpa using ha)]
      simp

theorem replicate_append_takeWhile {α : Type} (p : α → Bool) (a : α)
    (ha : p a = true) (z : Nat) (l : List α)
    (hl : ∀ h ∈ l.head?, p h = false) :
    (List.replicate z a ++ l).takeWhile p = List.replicate z a ∧
      (List.replicate z a ++ l).dropWhile p = l := by
  induction z with
  | zero =>
    simp only [List.replicate_zero, List.nil_append]
    cases l with
    | nil => simp
    | cons h t =>
      have hh : p h = false := hl h (by simp)
      constructor
      · rw [List.takeWhile_cons_of_neg (by simp [hh])]
      · rw [List.dropWhile_cons_of_neg (by simp [hh])]
  | succ z ih =>
    simp only [List.replicate_succ, List.cons_append]
    constructor
    · rw [List.takeWhile_cons_of_pos ha, ih.1]
    · rw [List.dropWhile_cons_of_pos ha, ih.2]

/-- Round trip of the modelled base58-btc codec: decoding an encoded byte
list recovers it exactly. -/
theorem decodeB58L_encodeB58L (bs : List Nat) (h : ∀ x ∈ bs, x < 256) :
    decodeB58L (encodeB58L bs) = some bs := by
  have hsplit : bs.takeWhile (· == 0) ++ bs.dropWhile (· == 0) = bs :=
    List.takeWhile_append_dropWhile _ _
  have hrest_lt : ∀ x ∈ bs.dropWhile (· == 0), x < 256 := by
    intro x hx
    exact h x ((List.dropWhile_sublist _).subset hx)
  have hrest_head : ∀ x ∈ (bs.dropWhile (· == 0)).head?, x ≠ 0 := by
    intro x hx
    have := head_dropWhile (· == 0) bs x hx
    simpa using this
  have hds_lt : ∀ d ∈ beDigits 58 (beVal 256 (bs.dropWhile (· == 0))), d < 58 :=
    beDigits_lt 58 (by omega) _
  have hds_head : ∀ d ∈ (beDigits 58 (beVal 256 (bs.dropWhile (· == 0)))).head?, d ≠ 0 :=
    beDigits_head_ne_zero 58 (by omega) _
  set ds := beDigits 58 (beVal 256 (bs.dropWhile (· == 0))) with hds_def
  set z := (bs.takeWhile (· == 0)).length with hz_def
  -- every encoded character is in the alphabet
  have hvalid : (List.replicate z '1' ++ ds.map b58Char).all
      (fun c => (b58Val c).isSome) = true := by
    rw [List.all_append]
    apply Bool.and_eq_true_iff.mpr
    constructor
    · rw [List.all_eq_true]
      intro c hc
      have hc1 : c = '1' := (List.eq_of_mem_replicate hc)
      subst hc1
      rfl
    · rw [List.all_eq_true]
      intro c hc
      rcases List.mem_map.mp hc with ⟨d, hd, rfl⟩
      rw [b58Val_b58Char d (hds_lt d hd)]
      rfl
  -- the head of the digit part is not '1'
  have hhead1 : ∀ c ∈ (ds.map b58Char).head?, (c == '1') = false := by
    intro c hc
    rw [List.head?_map] at hc
    cases hmem : ds.head? with
    | none => rw [hmem] at hc; simp at hc
    | some d =>
      rw [hmem] at hc
      have hcd : b58Char d = c := by simpa using hc
      subst hcd
      have hd_mem : d ∈ ds := List.mem_of_mem_head? hmem
      have hne : b58Char d ≠ '1' :=
        b58Char_ne_one d (hds_lt d hd_mem) (beDigits_head_ne_zero 58 (by omega) _ d hmem)
      simpa using hne
  have htw := replicate_append_takeWhile (· == '1') '1' rfl z (ds.map b58Char) hhead1
  have henc : encodeB58L bs = List.replicate z '1' ++ ds.map b58Char := rfl
  rw [henc, decodeB58L, if_pos hvalid, htw.1, htw.2, List.length_replicate]
  -- recover the digits from the characters
  have hmap : (ds.map b58Char).map (fun c => (b58Val c).getD 0) = ds := by
    rw [List.map_map]
    have : ds.map ((fun c => (b58Val c).getD 0) ∘ b58Char) = ds.map id := by
      apply List.map_eq_map_iff.mpr
      intro d hd
      simp only [Function.comp_apply, id_eq]
      rw [b58Val_b58Char d (hds_lt d hd)]
      rfl
    rw [this, List.map_id]
  rw [hmap, hds_def, beVal_beDigits 58 (by omega),
    beDigits_beVal 256 (by omega) _ hrest_lt hrest_head]
  -- reassemble the leading zeros
  have hrep : List.replicate z 0 = bs.takeWhile (· == 0) := by
    rw [hz_def]
    exact (takeWhile_zeros_eq_replicate bs).symm
  rw [hrep, hsplit]

/-- Round trip at the `String` level. -/
theorem decodeB58_encodeB58 (bs : List Nat) (h : ∀ x ∈ bs, x < 256) :
    decodeB58 (encodeB58 bs) = some bs :=
  decodeB58L_encodeB58L bs h

/- Helper facts about truthiness, strings and the constructor. -/

theorem truthy_some_iff (s : String) : truthy (some s) = true ↔ s ≠ "" := by
  simp [truthy]

theorem truthy_false_iff (x : Option String) :
    truthy x = false ↔ x = none ∨ x = some "" := by
  cases x with
  | none => simp [truthy]
  | some s => simp [truthy]

theorem data_z_append (s : String) : ("z" ++ s).data = 'z' :: s.data := by
  simp [String.data_append "z" s]

theorem append_hash_ne_empty (c fp : String) : c ++ "#" ++ fp ≠ "" := by
  intro h
  have hd := congrArg String.data h
  rw [String.data_append, String.data_append] at hd
  have h35 : ("#" : String).data = ['#'] := rfl
  have h0 : ("" : String).data = ([] : List Char) := rfl
  rw [h35, h0] at hd
  simp at hd

theorem construct_pub_only (s : String) (hs : s ≠ "") :
    construct { publicKeyBase58 := some s } =
      Except.ok { id := none, controller := none, revoked := none,
                  publicKeyBase58 := s, privateKeyBase58 := none } := by
  simp [construct, truthy, hs]

theorem construct_ok_fields (o : KeyOptions) (p : KeyPair)
    (hp : construct o = Except.ok p) :
    p.publicKeyBase58 = o.publicKeyBase58.getD "" ∧
      p.controller = o.controller ∧ p.revoked = o.revoked ∧
      p.privateKeyBase58 = o.privateKeyBase58 ∧
      truthy o.publicKeyBase58 = true := by
  unfold construct at hp
  by_cases hpub : truthy o.publicKeyBase58 = false
  · rw [if_pos hpub] at hp
    exact absurd hp (by simp)
  · rw [if_neg hpub] at hp
    have htp : truthy o.publicKeyBase58 = true := by
      cases h : truthy o.publicKeyBase58
      · exact absurd h hpub
      · rfl
    by_cases hcond : (truthy o.controller && !(truthy o.id)) = true
    · rw [if_pos hcond] at hp
      cases hfp : fingerprintFromPublicKey (o.publicKeyBase58.getD "") with
      | error e => rw [hfp] at hp; exact absurd hp (by simp)
      | ok fp =>
        rw [hfp] at hp
        have hpeq := (Except.ok.injEq _ _).mp hp
        subst hpeq
        exact ⟨rfl, rfl, rfl, rfl, htp⟩
    · rw [if_neg hcond] at hp
      have hpeq := (Except.ok.injEq _ _).mp hp
      subst hpeq
      exact ⟨rfl, rfl, rfl, rfl, htp⟩

theorem construct_ok_id_truthy (o : KeyOptions) (p : KeyPair)
    (hp : construct o = Except.ok p) (hc : truthy p.controller = true) :
    truthy p.id = true := by
  unfold construct at hp
  by_cases hpub : truthy o.publicKeyBase58 = false
  · rw [if_pos hpub] at hp
    exact absurd hp (by simp)
  · rw [if_neg hpub] at hp
    by_cases hcond : (truthy o.controller && !(truthy o.id)) = true
    · rw [if_pos hcond] at hp
      cases hfp : fingerprintFromPublicKey (o.publicKeyBase58.getD "") with
      | error e => rw [hfp] at hp; exact absurd hp (by simp)
      | ok fp =>
        rw [hfp] at hp
        have hpeq := (Except.ok.injEq _ _).mp hp
        subst hpeq
        have := append_hash_ne_empty (o.controller.getD "") fp
        simpa [truthy] using this
    · rw [if_neg hcond] at hp
      have hpeq := (Except.ok.injEq _ _).mp hp
      subst hpeq
      simp only [Bool.and_eq_true, Bool.not_eq_true', not_and] at hcond
      by_cases hco : truthy o.controller = true
      · have hid : ¬ truthy o.id = false := fun hf => hcond hco hf
        cases h : truthy o.id
        · exact absurd h hid
        · rfl
      · exact absurd hc hco

/-- C1: for every 32-byte public key k, encoding it as a fingerprint
(`fingerprintFromPublicKey` on its base58 form) and decoding that
fingerprint with `fromFingerprint` yields a key pair whose
`publicKeyBase58` decodes to exactly the original bytes k. -/
theorem C1_fingerprint_roundtrip (k : List Nat) (hlen : k.length = 32)
    (hlt : ∀ x ∈ k, x < 256) :
    ∃ fp kp,
      fingerprintFromPublicKey (encodeB58 k) = Except.ok fp ∧
      fromFingerprint (some fp) = Except.ok kp ∧
      decodeB58 kp.publicKeyBase58 = some k := by
  have hk : decodeB58 (encodeB58 k) = some k := decodeB58_encodeB58 k hlt
  have hbytes : ∀ x ∈ (0xec :: 0x01 :: k), x < 256 := by
    intro x hx
    simp only [List.mem_cons] at hx
    rcases hx with rfl | rfl | hx
    · omega
    · omega
    · exact hlt x hx
  have hk2 : decodeB58 (encodeB58 (0xec :: 0x01 :: k)) = some (0xec :: 0x01 :: k) :=
    decodeB58_encodeB58 _ hbytes
  have hne : encodeB58 k ≠ "" := by
    intro h
    rw [h] at hk
    have h0 : decodeB58 "" = some [] := rfl
    rw [h0] at hk
    have hkk : ([] : List Nat) = k := by simpa using hk
    rw [← hkk] at hlen
    simp at hlen
  refine ⟨"z" ++ encodeB58 (0xec :: 0x01 :: k),
    { id := none, controller := none, revoked := none,
      publicKeyBase58 := encodeB58 k, privateKeyBase58 := none }, ?_, ?_, hk⟩
  · simp [fingerprintFromPublicKey, hk]
  · simp only [fromFingerprint, data_z_append]
    have hdl : decodeB58L (encodeB58 (0xec :: 0x01 :: k)).data =
        some (0xec :: 0x01 :: k) := hk2
    simp only [fromFingerprintL, hdl]
    have hcond : ((0xec :: 0x01 :: k)[0]? = some 0xec ∧
        (0xec :: 0x01 :: k)[1]? = some 0x01) := by
      simp
    rw [if_pos hcond]
    show construct { publicKeyBase58 := some (encodeB58 k) } = _
    exact construct_pub_only (encodeB58 k) hne

/-- Witness for C1 at the all-zero 32-byte key. -/
theorem C1_fingerprint_roundtrip_witness :
    (List.replicate 32 0).length = 32 ∧
    (∃ fp kp,
      fingerprintFromPublicKey (encodeB58 (List.replicate 32 0)) = Except.ok fp ∧
      fromFingerprint (some fp) = Except.ok kp ∧
      decodeB58 kp.publicKeyBase58 = some (List.replicate 32 0)) :=
  ⟨by decide, C1_fingerprint_roundtrip (List.replicate 32 0) (by decide) (by decide)⟩

/-- C3: `deriveSecret` base58-decodes the remote public key and the local
private key and returns exactly `scalarMult(privateKey, remotePublicKey)`
of the external primitive; if either field is malformed base58 it fails
with the decode error, with a result independent of the primitive (the
primitive is never invoked). -/
theorem C3_deriveSecret_scalarMult (localKey remoteKey : KeyPair) (sk : String)
    (hsk : localKey.privateKeyBase58 = some sk) :
    (∀ skB pkB, decodeB58 sk = some skB →
        decodeB58 remoteKey.publicKeyBase58 = some pkB →
        ∀ scalarMult : List Nat → List Nat → List Nat,
          deriveSecret scalarMult localKey remoteKey = Except.ok (scalarMult skB pkB)) ∧
    ((decodeB58 sk = none ∨ decodeB58 remoteKey.publicKeyBase58 = none) →
      ∀ scalarMult : List Nat → List Nat → List Nat,
        deriveSecret scalarMult localKey remoteKey =
          Except.error KeyError.base58DecodeFailed) := by
  constructor
  · intro skB pkB h1 h2 sm
    simp [deriveSecret, h1, h2, hsk]
  · intro h sm
    rcases h with h | h
    · cases hre : decodeB58 remoteKey.publicKeyBase58 with
      | none => simp [deriveSecret, hre]
      | some pkB => simp [deriveSecret, hre, hsk, h]
    · simp [deriveSecret, h]

/-- Witness for C3 at a concrete pair of keys and a concrete primitive. -/
theorem C3_deriveSecret_scalarMult_witness :
    deriveSecret (fun a b => a ++ b)
      { id := none, controller := none, revoked := none,
        publicKeyBase58 := "4", privateKeyBase58 := some "2" }
      { id := none, controller := none, revoked := none,
        publicKeyBase58 := "3", privateKeyBase58 := none } = Except.ok [1, 2] :=
  (C3_deriveSecret_scalarMult
    { id := none, controller := none, revoked := none,
      publicKeyBase58 := "4", privateKeyBase58 := some "2" }
    { id := none, controller := none, revoked := none,
      publicKeyBase58 := "3", privateKeyBase58 := none }
    "2" rfl).1 [1] [2] (by decide) (by decide) (fun a b => a ++ b)

/-- C6: `verifyFingerprint` never throws: on every key pair and every input
value (undefined, non-string, or any string) it returns either the valid
result or an invalid result carrying an error value. -/
theorem C6_verifyFingerprint_total (kp : KeyPair) (v : JSVal) :
    verifyFingerprint kp v = VerifyResult.valid ∨
      ∃ e, verifyFingerprint kp v = VerifyResult.invalid e := by
  cases h : verifyFingerprint kp v with
  | valid => exact Or.inl rfl
  | invalid e => exact Or.inr ⟨e, rfl⟩

/-- C9: `convertFromEdPrivateKey` depends only on the first 32 bytes (the
seed) of a 64-byte Ed25519 private key, for every hash primitive. -/
theorem C9_convert_seed_only (hash : List Nat → List Nat) (s1 s2 : String)
    (b1 b2 : List Nat)
    (h1 : decodeB58 s1 = some b1) (h2 : decodeB58 s2 = some b2)
    (_hlen1 : b1.length = 64) (_hlen2 : b2.length = 64)
    (hseed : b1.take 32 = b2.take 32) :
    convertFromEdPrivateKey hash s1 = convertFromEdPrivateKey hash s2 := by
  simp only [convertFromEdPrivateKey, h1, h2, convertSecretKey, hseed]

/-- Witness for C9 at two concrete 64-byte keys sharing their seed. -/
theorem C9_convert_seed_only_witness :
    convertFromEdPrivateKey (fun l => l)
        (encodeB58 (List.replicate 32 5 ++ List.replicate 32 7)) =
      convertFromEdPrivateKey (fun l => l)
        (encodeB58 (List.replicate 32 5 ++ List.replicate 32 9)) :=
  C9_convert_seed_only (fun l => l) _ _
    (List.replicate 32 5 ++ List.replicate 32 7)
    (List.replicate 32 5 ++ List.replicate 32 9)
    (decodeB58_encodeB58 _ (by decide)) (decodeB58_encodeB58 _ (by decide))
    (by decide) (by decide) (by decide)

/-- C10: exporting a public-only key pair with the privateKey flag does not
fail; the returned record has its privateKeyBase58 property present with
the undefined value. -/
theorem C10_export_private_undefined (o : KeyOptions) (p : KeyPair)
    (hp : construct o = Except.ok p) (hnone : o.privateKeyBase58 = none) :
    ∃ r, exportKey p false true false = Except.ok r ∧
      r.privateKeyBase58 = PropVal.undef := by
  have hpriv : p.privateKeyBase58 = none := by
    have h := (construct_ok_fields o p hp).2.2.2.1
    rw [h, hnone]
  refine ⟨_, rfl, ?_⟩
  simp [exportKey, hpriv, optToProp]

/-- Closed form of the constructor as one case split, used by several
claims below. -/
theorem construct_eq (o : KeyOptions) :
    construct o =
      if truthy o.publicKeyBase58 = false then Except.error KeyError.missingPublicKey
      else if truthy o.controller && !(truthy o.id) then
        match decodeB58 (o.publicKeyBase58.getD "") with
        | none => Except.error KeyError.base58DecodeFailed
        | some b =>
          Except.ok { id := some (o.controller.getD "" ++ "#" ++
                        ("z" ++ encodeB58 (0xec :: 0x01 :: b))),
                      controller := o.controller, revoked := o.revoked,
                      publicKeyBase58 := o.publicKeyBase58.getD "",
                      privateKeyBase58 := o.privateKeyBase58 }
      else
        Except.ok { id := o.id, controller := o.controller, revoked := o.revoked,
                    publicKeyBase58 := o.publicKeyBase58.getD "",
                    privateKeyBase58 := o.privateKeyBase58 } := by
  unfold construct fingerprintFromPublicKey
  cases hdec : decodeB58 (o.publicKeyBase58.getD "") <;> simp [hdec]

/-- Success form of `fingerprintFromPublicKey`. -/
theorem fingerprintFromPublicKey_ok (s : String) (b : List Nat)
    (h : decodeB58 s = some b) :
    fingerprintFromPublicKey s = Except.ok ("z" ++ encodeB58 (0xec :: 0x01 :: b)) := by
  simp [fingerprintFromPublicKey, h]

/-- Reading back an assigned property value. -/
theorem propToOption_optToProp (x : Option String) :
    propToOption (optToProp x) = x := by
  cases x <;> rfl

/-- An assigned property is never missing. -/
theorem optToProp_ne_absent (x : Option String) :
    optToProp x ≠ PropVal.absent := by
  cases x <;> simp [optToProp]

/-- Success form of `export()` when at least one flag is set. -/
theorem exportKey_ok (kp : KeyPair) (pu pr ctx : Bool) (h : (pu || pr) = true) :
    exportKey kp pu pr ctx = Except.ok
      { id := optToProp kp.id, type := SUITE_ID,
        context := if ctx then PropVal.str SUITE_CONTEXT else PropVal.absent,
        controller := if truthy kp.controller then optToProp kp.controller
                      else PropVal.absent,
        publicKeyBase58 := if pu then PropVal.str kp.publicKeyBase58
                           else PropVal.absent,
        privateKeyBase58 := if pr then optToProp kp.privateKeyBase58
                            else PropVal.absent,
        revoked := if truthy kp.revoked then optToProp kp.revoked
                   else PropVal.absent } := by
  simp [exportKey, h]

/-- Witness for C10 at a concrete public-only key pair. -/
theorem C10_export_private_undefined_witness :
    ∃ r, exportKey { id := none, controller := none, revoked := none,
                     publicKeyBase58 := "2", privateKeyBase58 := none }
          false true false = Except.ok r ∧
      r.privateKeyBase58 = PropVal.undef :=
  C10_export_private_undefined { publicKeyBase58 := some "2" }
    { id := none, controller := none, revoked := none,
      publicKeyBase58 := "2", privateKeyBase58 := none }
    (by decide) rfl

/-- C4 counterexample: a present-but-empty publicKeyBase58 fails with the
MissingPublicKey error although the field is present, and a present
malformed publicKeyBase58 together with a controller makes construction
fail (with a base58 decode error, not MissingPublicKey) although the field
is present. -/
theorem C4_counterexample :
    construct { publicKeyBase58 := some "" } =
        Except.error KeyError.missingPublicKey ∧
    construct { publicKeyBase58 := some "0", controller := some "c" } =
        Except.error KeyError.base58DecodeFailed := by
  decide

/-- C4 (amended): construction fails with the MissingPublicKey error iff
publicKeyBase58 is absent or the empty string; a present non-empty
publicKeyBase58 guarantees success provided that, when controller is truthy
and id is not, the public key is valid base58 (otherwise the implied
fingerprint computation raises a decode error). -/
theorem C4_missing_public_key (o : KeyOptions) :
    (construct o = Except.error KeyError.missingPublicKey ↔
      (o.publicKeyBase58 = none ∨ o.publicKeyBase58 = some "")) ∧
    ((o.publicKeyBase58 ≠ none ∧ o.publicKeyBase58 ≠ some "" ∧
        (truthy o.controller = true → truthy o.id = true ∨
          (decodeB58 (o.publicKeyBase58.getD "")).isSome = true)) →
      ∃ p, construct o = Except.ok p) := by
  constructor
  · constructor
    · intro h
      by_cases hpub : truthy o.publicKeyBase58 = false
      · exact (truthy_false_iff _).mp hpub
      · exfalso
        rw [construct_eq, if_neg hpub] at h
        by_cases hcond : (truthy o.controller && !(truthy o.id)) = true
        · rw [if_pos hcond] at h
          cases hdec : decodeB58 (o.publicKeyBase58.getD "") with
          | none => rw [hdec] at h; simp at h
          | some b => rw [hdec] at h; simp at h
        · rw [if_neg hcond] at h; simp at h
    · intro h
      rw [construct_eq, if_pos ((truthy_false_iff _).mpr h)]
  · rintro ⟨h1, h2, h3⟩
    have hpub : truthy o.publicKeyBase58 = true := by
      have hno : ¬ (truthy o.publicKeyBase58 = false) := by
        intro hf
        rcases (truthy_false_iff _).mp hf with h | h
        exacts [h1 h, h2 h]
      cases hb : truthy o.publicKeyBase58
      · exact absurd hb hno
      · rfl
    rw [construct_eq, if_neg (by simp [hpub])]
    by_cases hcond : (truthy o.controller && !(truthy o.id)) = true
    · have hco : truthy o.controller = true := (Bool.and_eq_true _ _ |>.mp hcond).1
      have hid : truthy o.id = false := by
        have := (Bool.and_eq_true _ _ |>.mp hcond).2
        simpa using this
      rcases h3 hco with hidt | hdec
      · rw [hid] at hidt; exact absurd hidt (by simp)
      · rw [if_pos hcond]
        cases hdecv : decodeB58 (o.publicKeyBase58.getD "") with
        | none => rw [hdecv] at hdec; simp at hdec
        | some b => exact ⟨_, rfl⟩
    · rw [if_neg hcond]; exact ⟨_, rfl⟩

/-- Witness for the amended C4 at a concrete present non-empty key. -/
theorem C4_missing_public_key_witness :
    ∃ p, construct { publicKeyBase58 := some "2" } = Except.ok p :=
  (C4_missing_public_key { publicKeyBase58 := some "2" }).2
    ⟨by decide, by decide, fun h => absurd h (by decide)⟩

/-- C5: when controller is present and id absent, the constructed id is the
controller, then '#', then the fingerprint computed from publicKeyBase58
alone — the private key (bound here as an arbitrary `sk`) plays no part. -/
theorem C5_id_derivation (c pub : String) (hc : c ≠ "") (hpub : pub ≠ "")
    (pkB : List Nat) (hdec : decodeB58 pub = some pkB)
    (sk rv : Option String) :
    construct { id := none, controller := some c, revoked := rv,
                publicKeyBase58 := some pub, privateKeyBase58 := sk } =
      Except.ok { id := some (c ++ "#" ++ ("z" ++ encodeB58 (0xec :: 0x01 :: pkB))),
                  controller := some c, revoked := rv,
                  publicKeyBase58 := pub, privateKeyBase58 := sk } := by
  rw [construct_eq]
  simp [truthy, hc, hpub, hdec]

/-- Witness for C5: the concrete scenario of the specification. -/
theorem C5_id_derivation_witness :
    construct { id := none, controller := some "did:example:1234", revoked := none,
                publicKeyBase58 := some "8y8Q4AUVpmbm2VrXzqYSXrYcAETrFgX4eGPJoKrMWXNv",
                privateKeyBase58 := none } =
      Except.ok { id := some "did:example:1234#z6LSjeJZaUHMvEKW7tEJXV4PrSm61NzxxHhDXF6zHnVtDu9g",
                  controller := some "did:example:1234", revoked := none,
                  publicKeyBase58 := "8y8Q4AUVpmbm2VrXzqYSXrYcAETrFgX4eGPJoKrMWXNv",
                  privateKeyBase58 := none } := by
  have h := C5_id_derivation "did:example:1234"
    "8y8Q4AUVpmbm2VrXzqYSXrYcAETrFgX4eGPJoKrMWXNv" (by decide) (by decide)
    [118, 98, 178, 186, 217, 245, 197, 31, 116, 174, 38, 219, 139, 171, 205,
     17, 227, 187, 67, 226, 31, 229, 136, 20, 208, 45, 24, 68, 229, 168, 67, 23]
    (by decide) none none
  rw [h]
  decide

/-- C2 counterexample: a fingerprint string starting with 'z' whose
remainder base58-decodes successfully but whose first two decoded bytes are
[0, 0] rather than [0xec, 0x01] is rejected by verifyFingerprint with the
mismatch error, not with a decode-step error. -/
theorem C2_counterexample :
    decodeB58L (String.mk (List.replicate 34 '1')).data =
        some (0 :: 0 :: List.replicate 32 0) ∧
    (0 : Nat) ≠ 0xec ∧
    verifyFingerprint
        { id := none, controller := none, revoked := none,
          publicKeyBase58 := String.mk (List.replicate 32 '1'),
          privateKeyBase58 := none }
        (JSVal.str ("z" ++ String.mk (List.replicate 34 '1'))) =
      VerifyResult.invalid VerifyError.mismatch := by
  decide

/-- C2 (amended): a fingerprint whose remainder decodes but carries a wrong
multicodec header is rejected by the combined step-3 check with the
FingerprintMismatch error (the decode step does not inspect the header). -/
theorem C2_wrong_header_mismatch (kp : KeyPair) (rest : List Char)
    (buffer pkBuf : List Nat)
    (hdecfp : decodeB58L rest = some buffer)
    (hdecpk : decodeB58 kp.publicKeyBase58 = some pkBuf)
    (hhdr : ¬(buffer[0]? = some 0xec ∧ buffer[1]? = some 0x01)) :
    verifyFingerprint kp (JSVal.str (String.mk ('z' :: rest))) =
      VerifyResult.invalid VerifyError.mismatch := by
  show verifyFingerprintL kp ('z' :: rest) = _
  simp only [verifyFingerprintL, hdecfp, hdecpk]
  rw [if_pos trivial, if_neg (fun hand => hhdr ⟨hand.1, hand.2.1⟩)]

/-- Witness for the amended C2 at a concrete wrong-header fingerprint. -/
theorem C2_wrong_header_mismatch_witness :
    verifyFingerprint
        { id := none, controller := none, revoked := none,
          publicKeyBase58 := "2", privateKeyBase58 := none }
        (JSVal.str (String.mk ['z', '1', '1'])) =
      VerifyResult.invalid VerifyError.mismatch :=
  C2_wrong_header_mismatch
    { id := none, controller := none, revoked := none,
      publicKeyBase58 := "2", privateKeyBase58 := none }
    ['1', '1'] [0, 0] [1] (by decide) (by decide) (by decide)

/-- C7: export fails with the selection error iff both flags are clear;
with at least one flag the record contains id and type, contains controller
and revoked exactly when those are (truthily) set on the key pair, and
contains the public/private key fields exactly per the flags. -/
theorem C7_export_shape (kp : KeyPair) (pu pr ctx : Bool) :
    (exportKey kp pu pr ctx = Except.error KeyError.exportRequiresSelection ↔
      (pu = false ∧ pr = false)) ∧
    ((pu = true ∨ pr = true) →
      ∃ r, exportKey kp pu pr ctx = Except.ok r ∧
        r.id ≠ PropVal.absent ∧ r.type = SUITE_ID ∧
        (r.controller ≠ PropVal.absent ↔ truthy kp.controller = true) ∧
        (r.publicKeyBase58 ≠ PropVal.absent ↔ pu = true) ∧
        (r.privateKeyBase58 ≠ PropVal.absent ↔ pr = true) ∧
        (r.revoked ≠ PropVal.absent ↔ truthy kp.revoked = true)) := by
  constructor
  · cases pu <;> cases pr <;> simp [exportKey]
  · intro hflag
    have hor : (pu || pr) = true := by
      rcases hflag with h | h <;> simp [h]
    refine ⟨_, exportKey_ok kp pu pr ctx hor, ?_, rfl, ?_, ?_, ?_, ?_⟩
    · exact optToProp_ne_absent kp.id
    · cases hco : truthy kp.controller <;>
        simp [optToProp_ne_absent kp.controller]
    · cases pu <;> simp
    · cases pr <;> simp [optToProp_ne_absent kp.privateKeyBase58]
    · cases hrv : truthy kp.revoked <;>
        simp [optToProp_ne_absent kp.revoked]

/-- Witness for C7 at a concrete key pair and flag choice. -/
theorem C7_export_shape_witness :
    ∃ r, exportKey { id := none, controller := none, revoked := none,
                     publicKeyBase58 := "2", privateKeyBase58 := none }
          true false false = Except.ok r ∧
        r.id ≠ PropVal.absent ∧ r.type = SUITE_ID ∧
        (r.controller ≠ PropVal.absent ↔
          truthy (none : Option String) = true) ∧
        (r.publicKeyBase58 ≠ PropVal.absent ↔ true = true) ∧
        (r.privateKeyBase58 ≠ PropVal.absent ↔ false = true) ∧
        (r.revoked ≠ PropVal.absent ↔ truthy (none : Option String) = true) :=
  (C7_export_shape { id := none, controller := none, revoked := none,
                     publicKeyBase58 := "2", privateKeyBase58 := none }
    true false false).2 (Or.inl rfl)

/-- C8: exporting a key pair holding both keys with both flags and
reconstructing from the record yields string-equal key material. -/
theorem C8_export_reconstruct (o : KeyOptions) (p : KeyPair)
    (hp : construct o = Except.ok p) (sk : String)
    (hsk : p.privateKeyBase58 = some sk) :
    ∃ r q, exportKey p true true false = Except.ok r ∧
      construct (optionsOfExported r) = Except.ok q ∧
      q.publicKeyBase58 = p.publicKeyBase58 ∧
      q.privateKeyBase58 = some sk ∧
      q.privateKeyBase58 = p.privateKeyBase58 := by
  have hfields := construct_ok_fields o p hp
  have hpne : p.publicKeyBase58 ≠ "" := by
    rcases hfields with ⟨hpeq, -, -, -, htru⟩
    cases hx : o.publicKeyBase58 with
    | none => rw [hx] at htru; simp [truthy] at htru
    | some s =>
      rw [hx] at htru hpeq
      have hs : s ≠ "" := (truthy_some_iff s).mp htru
      simpa [hpeq] using hs
  have hopts : optionsOfExported
      { id := optToProp p.id, type := SUITE_ID, context := PropVal.absent,
        controller := if truthy p.controller then optToProp p.controller
                      else PropVal.absent,
        publicKeyBase58 := PropVal.str p.publicKeyBase58,
        privateKeyBase58 := optToProp p.privateKeyBase58,
        revoked := if truthy p.revoked then optToProp p.revoked
                   else PropVal.absent } =
      { id := p.id,
        controller := if truthy p.controller then p.controller else none,
        revoked := if truthy p.revoked then p.revoked else none,
        publicKeyBase58 := some p.publicKeyBase58,
        privateKeyBase58 := p.privateKeyBase58 } := by
    simp only [optionsOfExported, propToOption_optToProp]
    cases hco : truthy p.controller <;> cases hrv : truthy p.revoked <;>
      simp [propToOption_optToProp, show propToOption PropVal.absent = none from rfl,
        show ∀ s, propToOption (PropVal.str s) = some s from fun s => rfl]
  have hcondF : (truthy (if truthy p.controller then p.controller else none) &&
      !(truthy p.id)) = false := by
    cases hco : truthy p.controller with
    | false => simp [truthy]
    | true =>
      have hid : truthy p.id = true := construct_ok_id_truthy o p hp hco
      simp [hco, hid]
  have hB : construct (optionsOfExported
      { id := optToProp p.id, type := SUITE_ID, context := PropVal.absent,
        controller := if truthy p.controller then optToProp p.controller
                      else PropVal.absent,
        publicKeyBase58 := PropVal.str p.publicKeyBase58,
        privateKeyBase58 := optToProp p.privateKeyBase58,
        revoked := if truthy p.revoked then optToProp p.revoked
                   else PropVal.absent }) =
      Except.ok { id := p.id,
                  controller := if truthy p.controller then p.controller else none,
                  revoked := if truthy p.revoked then p.revoked else none,
                  publicKeyBase58 := p.publicKeyBase58,
                  privateKeyBase58 := p.privateKeyBase58 } := by
    rw [hopts, construct_eq]
    rw [if_neg (by simp [truthy_some_iff, hpne])]
    rw [if_neg (by simp [hcondF])]
    simp
  exact ⟨_, _, exportKey_ok p true true false rfl, hB, rfl, hsk, rfl⟩

/-- Witness for C8 at a concrete full key pair. -/
theorem C8_export_reconstruct_witness :
    ∃ r q, exportKey { id := none, controller := none, revoked := none,
                       publicKeyBase58 := "2", privateKeyBase58 := some "3" }
          true true false = Except.ok r ∧
      construct (optionsOfExported r) = Except.ok q ∧
      q.publicKeyBase58 =
        KeyPair.publicKeyBase58 { id := none, controller := none, revoked := none,
                                  publicKeyBase58 := "2", privateKeyBase58 := some "3" } ∧
      q.privateKeyBase58 = some "3" ∧
      q.privateKeyBase58 =
        KeyPair.privateKeyBase58 { id := none, controller := none, revoked := none,
                                   publicKeyBase58 := "2", privateKeyBase58 := some "3" } :=
  C8_export_reconstruct { publicKeyBase58 := some "2", privateKeyBase58 := some "3" }
    { id := none, controller := none, revoked := none,
      publicKeyBase58 := "2", privateKeyBase58 := some "3" }
    (by decide) "3" rfl

end X25519
